import Mathlib

set_option linter.unusedVariables false

/- Formal model of the interview-prep client's streaming core
   (frontend/src/pages/Home.jsx: generateQuestionsStream, handleStreamEvent,
   loadMoreQuestions) and of its one-shot counterpart
   (frontend/app/index.tsx: generateQuestions, loadMoreQuestions).
   Transport text is modelled as lists of characters.  JSON.parse is a
   platform primitive, so it enters the model as a parameter
   `parse : List Char → Option Payload`; parsed JSON payloads are modelled
   as flat string-keyed records, which covers every field the client code
   reads (category, message, and the job-analysis fields). -/

/-- Characters removed by the JavaScript `trim()` that the blank-input
checks rely on (the ASCII whitespace subset). -/
def isJsWs (c : Char) : Bool :=
  c == ' ' || c == '\t' || c == '\n' || c == '\r' || c == '\x0b' || c == '\x0c'

/-- Model of the JavaScript test `!s.trim()`: true exactly when the string
is empty or consists only of whitespace characters. -/
def jsBlank (s : String) : Bool :=
  s.toList.all isJsWs

/-- Model of `buffer.split('\n')` followed by `buffer = lines.pop() || ''`
in Home.jsx lines 66-67: the first component is the list of completed lines
(the split segments before the last one), the second component is the
trailing fragment after the last newline (the popped final segment). -/
def splitLines : List Char → List (List Char) × List Char
  | [] => ([], [])
  | c :: cs =>
    if c = '\n' then
      ([] :: (splitLines cs).1, (splitLines cs).2)
    else
      match splitLines cs with
      | ([], r) => ([], c :: r)
      | (l :: ls, r) => ((c :: l) :: ls, r)

/-- Combines the line/fragment decompositions of two adjacent pieces of
text into the decomposition of their concatenation. -/
def joinSplit (p q : List (List Char) × List Char) : List (List Char) × List Char :=
  match q.1 with
  | [] => (p.1, p.2 ++ q.2)
  | l :: ls => (p.1 ++ (p.2 ++ l) :: ls, q.2)

/-- Number of newline characters in a piece of text (the number of
complete lines it terminates). -/
def countNl : List Char → Nat
  | [] => 0
  | c :: cs => (if c = '\n' then 1 else 0) + countNl cs

/-- The Line Framer run over a sequence of chunks (the per-chunk part of
the `while` loop in Home.jsx lines 61-67): each chunk is appended to the
pending buffer, completed lines are emitted, and the trailing fragment
becomes the new buffer.  Returns all emitted lines in order together with
the final buffer. -/
def framerRunFull : List Char → List (List Char) → List (List Char) × List Char
  | buf, [] => ([], buf)
  | buf, c :: cs =>
    let p := splitLines (buf ++ c)
    let r := framerRunFull p.2 cs
    (p.1 ++ r.1, r.2)

/-- The lines emitted by the Line Framer over a sequence of chunks. -/
def framerRun (buf : List Char) (cs : List (List Char)) : List (List Char) :=
  (framerRunFull buf cs).1

/-- A parsed JSON payload, modelled as a flat record of string fields:
the client code only ever reads top-level, string-valued fields of the
event payloads it receives. -/
structure Payload where
  fields : List (String × String)
deriving DecidableEq

/-- Field lookup on a payload; `none` models the JavaScript `undefined`
obtained when reading an absent property. -/
def Payload.get (p : Payload) (k : String) : Option String :=
  let rec go : List (String × String) → Option String
    | [] => none
    | (k1, v) :: rest => if k1 = k then some v else go rest
  go p.fields

/-- A value stored under one key of the `questions` state object of
Home.jsx: either a category array of question payloads, or the
job-analysis slot (a nullable object, `analysis none` being JS null). -/
inductive SVal where
  | list : List Payload → SVal
  | analysis : Option Payload → SVal
deriving DecidableEq

/-- The `questions` state object of Home.jsx, a JavaScript object used as
a dictionary: an insertion-ordered association list from key to value. -/
abbrev QState := List (String × SVal)

/-- Own-property lookup on the questions object. -/
def lookupKey : QState → String → Option SVal
  | [], _ => none
  | (k1, v) :: rest, k => if k1 = k then some v else lookupKey rest k

/-- The object spread update `\x7b ...prev, [k]: v \x7d`: replaces the
value of an existing key in place, or appends a new key. -/
def setKey : QState → String → SVal → QState
  | [], k, v => [(k, v)]
  | (k1, v1) :: rest, k, v =>
    if k1 = k then (k, v) :: rest else (k1, v1) :: setKey rest k v

/-- The update `\x7b ...prev, [k]: [...(prev[k] || []), ...ps] \x7d` used
by the question handler and by loadMoreQuestions: appends to the array
under `k`, treating an absent key or a null value as the empty array.
When the key holds the already-set job-analysis object, the spread of a
non-iterable raises a TypeError that the enclosing try/catch of the parse
step absorbs; this is modelled as leaving the state unchanged. -/
def appendVals (q : QState) (k : String) (ps : List Payload) : QState :=
  match lookupKey q k with
  | some (.list xs) => setKey q k (.list (xs ++ ps))
  | some (.analysis none) => setKey q k (.list ps)
  | some (.analysis (some _)) => q
  | none => setKey q k (.list ps)

/-- The fresh questions object installed at session start
(Home.jsx lines 32-38). -/
def initQState : QState :=
  [("technical", .list []), ("behavioral", .list []),
   ("situational", .list []), ("company_specific", .list []),
   ("job_analysis", .analysis none)]

/-- The question sequence stored under a category key (empty when the key
is absent or holds a non-array value). -/
def catList (q : QState) (k : String) : List Payload :=
  match lookupKey q k with
  | some (.list xs) => xs
  | _ => []

/-- States reachable by the accumulator: only the `job_analysis` key ever
holds a non-array value. -/
def wfB (q : QState) : Bool :=
  q.all fun kv =>
    match kv.2 with
    | .analysis _ => kv.1 == "job_analysis"
    | _ => true

/-- The component state the Event Dispatcher mutates during one streaming
session: the questions object (non-null for the whole session, Home.jsx
line 32), the stream status message (`none` models JS undefined), and the
selected category tab. -/
structure AccState where
  questions : QState
  streamStatus : Option String
  selectedCategory : String
deriving DecidableEq

namespace Home

/-- handleStreamEvent of Home.jsx lines 94-120: the switch over the event
name.  `status` stores the payload message; `job_analysis` overwrites the
job-analysis slot; `question` appends the payload to the array under the
payload's category (an absent category property yields the JS key
"undefined") and auto-switches the tab for the first technical question;
`complete` sets the status message (its delayed clearing by setTimeout is
outside the synchronous state model); `error` only alerts; unrecognized
names fall through the switch unchanged. -/
def handleStreamEvent (nm : List Char) (p : Payload) (a : AccState) : AccState :=
  if nm = "status".toList then
    { a with streamStatus := p.get "message" }
  else if nm = "job_analysis".toList then
    { a with questions := setKey a.questions "job_analysis" (.analysis (some p)) }
  else if nm = "question".toList then
    let k := (p.get "category").getD "undefined"
    let a1 := { a with questions := appendVals a.questions k [p] }
    if p.get "category" = some "technical" then
      { a1 with selectedCategory := "technical" }
    else a1
  else if nm = "complete".toList then
    { a with streamStatus := some "Complete!" }
  else a

end Home

/-- The 7-character marker tested by `line.startsWith('event: ')`. -/
def evMark : List Char := ['e', 'v', 'e', 'n', 't', ':', ' ']

/-- The 6-character marker tested by `line.startsWith('data: ')`. -/
def dataMark : List Char := ['d', 'a', 't', 'a', ':', ' ']

/-- JavaScript truthiness of the `currentEvent` variable: null and the
empty string are falsy. -/
def ceTruthy : Option (List Char) → Bool
  | none => false
  | some [] => false
  | some (_ :: _) => true

/-- One iteration of the dispatcher's `for` loop (Home.jsx lines 70-82),
acting on the pending event name: an `event: ` line stores the raw
remainder `line.slice(7)` (no trimming); a `data: ` line with a truthy
pending name parses `line.slice(6)` and, on success, yields the applied
(event name, payload) pair, clearing the pending name whether or not the
parse succeeded; any other line leaves the pending name unchanged. -/
def dispStep (parse : List Char → Option Payload) (ce : Option (List Char))
    (line : List Char) : Option (List Char) × Option (List Char × Payload) :=
  if evMark.isPrefixOf line then
    (some (line.drop 7), none)
  else if dataMark.isPrefixOf line && ceTruthy ce then
    match ce, parse (line.drop 6) with
    | some nm, some v => (none, some (nm, v))
    | _, _ => (none, none)
  else (ce, none)

/-- The dispatcher's `for` loop over a batch of lines, collecting the
applied (event name, payload) pairs in order and returning the final
pending event name. -/
def dispLines (parse : List Char → Option Payload) :
    Option (List Char) → List (List Char) → List (List Char × Payload) × Option (List Char)
  | ce, [] => ([], ce)
  | ce, l :: ls =>
    match dispStep parse ce l with
    | (ce1, none) => dispLines parse ce1 ls
    | (ce1, some ev) =>
      let r := dispLines parse ce1 ls
      (ev :: r.1, r.2)

/-- The events applied by the frame grammar over one batch of lines,
starting (as the code does at each chunk) with no pending event name. -/
def dispEvents (parse : List Char → Option Payload) (ls : List (List Char)) :
    List (List Char × Payload) :=
  (dispLines parse none ls).1

/-- Applies a list of already-extracted events to the accumulator in
order. -/
def applyAll : AccState → List (List Char × Payload) → AccState
  | a, [] => a
  | a, ev :: evs => applyAll (Home.handleStreamEvent ev.1 ev.2 a) evs

/-- The dispatcher's `for` loop with the event application inlined, as the
source performs it: each successfully parsed frame is applied to the
accumulator immediately. -/
def applyLines (parse : List Char → Option Payload) :
    Option (List Char) → List (List Char) → AccState → AccState
  | _, [], a => a
  | ce, l :: ls, a =>
    match dispStep parse ce l with
    | (ce1, none) => applyLines parse ce1 ls a
    | (ce1, some ev) => applyLines parse ce1 ls (Home.handleStreamEvent ev.1 ev.2 a)

/-- The body of one `while` iteration of Home.jsx lines 61-83: append the
chunk to the buffer, split off the completed lines, keep the trailing
fragment as the new buffer, and run the `for` loop over the completed
lines with `currentEvent` freshly initialized to null (line 69 is inside
the `while` loop).  The body consults no session identity: it applies its
events to whatever accumulator state is current. -/
def loopIter (parse : List Char → Option Payload) (buf chunk : List Char)
    (a : AccState) : List Char × AccState :=
  let p := splitLines (buf ++ chunk)
  (p.2, applyLines parse none p.1 a)

/-- The full read loop over the sequence of delivered chunks; the buffer
left at stream end is discarded. -/
def streamLoop (parse : List Char → Option Payload) :
    List Char → List (List Char) → AccState → AccState
  | _, [], a => a
  | buf, c :: cs, a =>
    let r := loopIter parse buf c a
    streamLoop parse r.1 cs r.2

/-- The events applied over the whole stream, described compositionally:
for each chunk, the frame grammar runs over that chunk's batch of
completed lines with a fresh (null) pending event name, and the per-batch
results are concatenated in chunk order. -/
def chunkedEvents (parse : List Char → Option Payload) :
    List Char → List (List Char) → List (List Char × Payload)
  | _, [] => []
  | buf, c :: cs =>
    let p := splitLines (buf ++ c)
    dispEvents parse p.1 ++ chunkedEvents parse p.2 cs

/-- Outcome of one call to the streaming controller. -/
inductive GenOutcome where
  | validationError
  | streamed
  | transportFailed
deriving DecidableEq

/-- Outcome of one call to the load-more operation. -/
inductive LMOutcome where
  | noop
  | appended
  | noMore
  | failed
deriving DecidableEq

/-- The component state of Home.jsx that the modelled operations read or
write. -/
structure HomeState where
  jobDescription : String
  loading : Bool
  loadingMore : Bool
  isStreaming : Bool
  questions : Option QState
  streamStatus : Option String
  selectedCategory : String
deriving DecidableEq

namespace Home

/-- generateQuestionsStream of Home.jsx lines 23-92, for one session run
to completion.  The transport is a parameter: `Except.error ()` models a
rejected fetch or a read failure (the catch block), `Except.ok chunks`
the delivered chunk sequence.  A blank job description returns before any
state change or network call.  Otherwise the state is synchronously reset
(lines 30-40; the close() on lines 43-44 is dead code because
eventSourceRef.current is never assigned), the read loop consumes the
chunks, and the finally block clears the loading flags and the status
message. -/
def generateQuestionsStream (parse : List Char → Option Payload)
    (st : HomeState) (tr : Except Unit (List (List Char))) :
    HomeState × GenOutcome :=
  if jsBlank st.jobDescription then (st, .validationError)
  else
    let st1 : HomeState :=
      { st with loading := true, isStreaming := true,
                questions := some initQState,
                streamStatus := some "Starting...",
                selectedCategory := "behavioral" }
    match tr with
    | .error _ =>
      ({ st1 with loading := false, isStreaming := false,
                  streamStatus := some "" }, .transportFailed)
    | .ok chunks =>
      let a0 : AccState :=
        { questions := initQState, streamStatus := some "Starting...",
          selectedCategory := "behavioral" }
      let a := streamLoop parse [] chunks a0
      ({ st1 with questions := some a.questions,
                  selectedCategory := a.selectedCategory,
                  streamStatus := some "",
                  loading := false, isStreaming := false }, .streamed)

/-- JavaScript truthiness of `questions?.job_analysis` in the
loadMoreQuestions guard: a null questions state, an absent key, or a null
job-analysis slot are falsy; a set job-analysis object or an array (the
aliased case) are truthy. -/
def jaTruthy (q : QState) : Bool :=
  match lookupKey q "job_analysis" with
  | some (.analysis (some _)) => true
  | some (.list _) => true
  | _ => false

/-- loadMoreQuestions of Home.jsx lines 122-149.  The guard on line 123
returns immediately, with no request and no state change, when
`questions?.job_analysis` is falsy.  Otherwise the request is issued (its
result is the `resp` parameter): a failure alerts; an empty questions
array alerts that no more are available; a non-empty one is appended to
the selected category.  The loadingMore flag, raised during the request,
is lowered again by the finally block. -/
def loadMoreQuestions (st : HomeState) (resp : Except Unit (List Payload)) :
    HomeState × LMOutcome :=
  match st.questions with
  | none => (st, .noop)
  | some q =>
    if jaTruthy q then
      match resp with
      | .error _ => ({ st with loadingMore := false }, .failed)
      | .ok qs =>
        if qs.isEmpty then ({ st with loadingMore := false }, .noMore)
        else
          ({ st with questions := some (appendVals q st.selectedCategory qs),
                     loadingMore := false }, .appended)
    else (st, .noop)

end Home

/-- Holds when the ResultSet of Home.jsx has no job analysis: no questions
object at all, or a questions object whose job-analysis slot is null (or
absent). -/
def jaNullH (st : HomeState) : Bool :=
  match st.questions with
  | none => true
  | some q =>
    match lookupKey q "job_analysis" with
    | some (.analysis none) => true
    | none => true
    | _ => false

namespace OneShot

/-- The Question record of frontend/app/index.tsx lines 26-37. -/
structure Question where
  id : String
  question : String
  answer : String
  category : String
  job_description : String
  source : Option String
  source_url : Option String
  company : Option String
  skill_tag : Option String
  difficulty : Option String
deriving DecidableEq

/-- The JobAnalysis record of frontend/app/index.tsx lines 39-49. -/
structure JobAnalysis where
  company_name : Option String
  job_title : String
  industry : String
  seniority_level : String
  key_skills : List String
  technical_skills : List String
  soft_skills : List String
  job_type : String
  domain : String
deriving DecidableEq

/-- The QuestionsResponse record of frontend/app/index.tsx lines 51-57:
the whole ResultSet delivered by the non-streaming endpoint. -/
structure QuestionsResponse where
  technical : List Question
  behavioral : List Question
  situational : List Question
  company_specific : List Question
  job_analysis : Option JobAnalysis
deriving DecidableEq

/-- Outcome of one call to the one-shot generate operation. -/
inductive OSOutcome where
  | validationError
  | success
  | failure
deriving DecidableEq

/-- The component state of index.tsx that the modelled operations read or
write. -/
structure OSState where
  jobDescription : String
  loading : Bool
  loadingMore : Bool
  questions : Option QuestionsResponse
  selectedCategory : String
deriving DecidableEq

/-- generateQuestions of index.tsx lines 153-169.  A blank job description
returns before any state change or network call.  Otherwise the questions
state is cleared to null (line 159) before the request is issued; on
success the response replaces the whole ResultSet and the selected
category returns to technical; on failure only an alert is shown, so the
questions state stays null.  The loading flag is lowered by the finally
block. -/
def generateQuestions (st : OSState) (r : Except Unit QuestionsResponse) :
    OSState × OSOutcome :=
  if jsBlank st.jobDescription then (st, .validationError)
  else
    match r with
    | .ok resp =>
      ({ st with loading := false, questions := some resp,
                 selectedCategory := "technical" }, .success)
    | .error _ =>
      ({ st with loading := false, questions := none }, .failure)

/-- The question list of one of the four category fields (empty for any
other key, which the tab UI never selects). -/
def getCat (r : QuestionsResponse) (k : String) : List Question :=
  if k = "technical" then r.technical
  else if k = "behavioral" then r.behavioral
  else if k = "situational" then r.situational
  else if k = "company_specific" then r.company_specific
  else []

/-- Replaces the question list of one of the four category fields. -/
def setCat (r : QuestionsResponse) (k : String) (qs : List Question) :
    QuestionsResponse :=
  if k = "technical" then { r with technical := qs }
  else if k = "behavioral" then { r with behavioral := qs }
  else if k = "situational" then { r with situational := qs }
  else if k = "company_specific" then { r with company_specific := qs }
  else r

/-- loadMoreQuestions of index.tsx lines 171-199.  The guard on line 172
returns immediately, with no request and no state change, when
`questions?.job_analysis` is falsy (null questions or null job analysis).
Otherwise a failure alerts, an empty response array alerts that no more
are available, and a non-empty one is appended to the selected category.
The loadingMore flag is lowered by the finally block. -/
def loadMoreQuestions (st : OSState) (resp : Except Unit (List Question)) :
    OSState × LMOutcome :=
  match st.questions with
  | none => (st, .noop)
  | some q =>
    match q.job_analysis with
    | none => (st, .noop)
    | some _ =>
      match resp with
      | .error _ => ({ st with loadingMore := false }, .failed)
      | .ok qs =>
        if qs.isEmpty then ({ st with loadingMore := false }, .noMore)
        else
          let q1 := setCat q st.selectedCategory (getCat q st.selectedCategory ++ qs)
          ({ st with questions := some q1, loadingMore := false }, .appended)

end OneShot

/-- Holds when the ResultSet of index.tsx has no job analysis. -/
def jaNullOS (st : OneShot.OSState) : Bool :=
  match st.questions with
  | none => true
  | some q => q.job_analysis.isNone

/-- A question payload with category technical, used in concrete runs. -/
def pTech : Payload := ⟨[("category", "technical")]⟩

/-- A payload whose category field is the reserved key job_analysis. -/
def pJA : Payload := ⟨[("category", "job_analysis")]⟩

/-- A concrete parse function on which every string fails to parse. -/
def parseNone : List Char → Option Payload := fun _ => none

/-- A concrete parse function on which every string parses to pTech. -/
def parseTech : List Char → Option Payload := fun _ => some pTech

/-- A concrete parse function on which exactly the string x parses (to
pTech) and every other string fails. -/
def parseDemo : List Char → Option Payload :=
  fun s => if s = "x".toList then some pTech else none

/-- The accumulator state right after the synchronous session reset of
Home.jsx lines 30-40. -/
def accReset : AccState :=
  { questions := initQState, streamStatus := some "Starting...",
    selectedCategory := "behavioral" }

/-- A chunk carrying one complete question frame. -/
def frameChunk : List Char := ("event: question\ndata: x\n").toList

/-- A chunk carrying only the event line of a frame. -/
def evChunk : List Char := ("event: question\n").toList

/-- A chunk carrying only the data line of a frame. -/
def dataChunk : List Char := ("data: x\n").toList

/-- A Home component state with a blank job description. -/
def stHomeBlank : HomeState :=
  { jobDescription := "   ", loading := false, loadingMore := false,
    isStreaming := false, questions := none, streamStatus := some "",
    selectedCategory := "technical" }

/-- A Home component state with results present but no job analysis. -/
def stHomeNoJa : HomeState :=
  { jobDescription := "engineer", loading := false, loadingMore := false,
    isStreaming := false, questions := some initQState,
    streamStatus := some "", selectedCategory := "technical" }

/-- A concrete one-shot question record. -/
def qDemo : OneShot.Question :=
  { id := "q1", question := "Explain X", answer := "Y",
    category := "technical", job_description := "engineer",
    source := none, source_url := none, company := none,
    skill_tag := none, difficulty := none }

/-- A concrete one-shot ResultSet with one technical question and no job
analysis. -/
def respDemo : OneShot.QuestionsResponse :=
  { technical := [qDemo], behavioral := [], situational := [],
    company_specific := [], job_analysis := none }

/-- A one-shot component state with a blank job description. -/
def stOSBlank : OneShot.OSState :=
  { jobDescription := "", loading := false, loadingMore := false,
    questions := some respDemo, selectedCategory := "technical" }

/-- A one-shot component state holding a prior ResultSet. -/
def stOSPrior : OneShot.OSState :=
  { jobDescription := "engineer", loading := false, loadingMore := false,
    questions := some respDemo, selectedCategory := "technical" }

theorem splitLines_cons_nl (cs : List Char) :
    splitLines ('\n' :: cs) = ([] :: (splitLines cs).1, (splitLines cs).2) := by
  simp [splitLines]

theorem splitLines_cons_other_nil {c : Char} (hc : c ≠ '\n') {cs r : List Char}
    (h : splitLines cs = ([], r)) : splitLines (c :: cs) = ([], c :: r) := by
  simp [splitLines, hc, h]

theorem splitLines_cons_other_cons {c : Char} (hc : c ≠ '\n')
    {cs l : List Char} {ls : List (List Char)} {r : List Char}
    (h : splitLines cs = (l :: ls, r)) :
    splitLines (c :: cs) = ((c :: l) :: ls, r) := by
  simp [splitLines, hc, h]

theorem splitLines_append (x y : List Char) :
    splitLines (x ++ y) = joinSplit (splitLines x) (splitLines y) := by
  induction x with
  | nil =>
    cases h : splitLines y with
    | mk ls r => cases ls <;> simp [splitLines, joinSplit, h]
  | cons c x ih =>
    by_cases hc : c = '\n'
    · subst hc
      rw [List.cons_append, splitLines_cons_nl, splitLines_cons_nl, ih]
      cases hx : splitLines x with
      | mk xl xr =>
        cases hy : splitLines y with
        | mk yl yr => cases yl <;> simp [joinSplit]
    · rw [List.cons_append]
      cases hx : splitLines x with
      | mk xl xr =>
        cases hy : splitLines y with
        | mk yl yr =>
          cases xl with
          | nil =>
            cases yl with
            | nil =>
              have h1 : splitLines (x ++ y) = ([], xr ++ yr) := by
                rw [ih, hx, hy]; rfl
              rw [splitLines_cons_other_nil hc h1,
                  splitLines_cons_other_nil hc hx]
              simp [joinSplit]
            | cons l0 ls0 =>
              have h1 : splitLines (x ++ y) = ((xr ++ l0) :: ls0, yr) := by
                rw [ih, hx, hy]; rfl
              rw [splitLines_cons_other_cons hc h1,
                  splitLines_cons_other_nil hc hx]
              simp [joinSplit]
          | cons xl0 xls =>
            cases yl with
            | nil =>
              have h1 : splitLines (x ++ y) = (xl0 :: xls, xr ++ yr) := by
                rw [ih, hx, hy]; rfl
              rw [splitLines_cons_other_cons hc h1,
                  splitLines_cons_other_cons hc hx]
              simp [joinSplit]
            | cons l0 ls0 =>
              have h1 : splitLines (x ++ y)
                  = (xl0 :: (xls ++ (xr ++ l0) :: ls0), yr) := by
                rw [ih, hx, hy]; rfl
              rw [splitLines_cons_other_cons hc h1,
                  splitLines_cons_other_cons hc hx]
              simp [joinSplit]

theorem noNl_splitLines {b : List Char} (h : '\n' ∉ b) : splitLines b = ([], b) := by
  induction b with
  | nil => rfl
  | cons c cs ih =>
    simp only [List.mem_cons, not_or] at h
    have hc : c ≠ '\n' := fun e => h.1 e.symm
    rw [splitLines_cons_other_nil hc (ih h.2)]

theorem rem_noNl (l : List Char) : '\n' ∉ (splitLines l).2 := by
  induction l with
  | nil => simp [splitLines]
  | cons c cs ih =>
    by_cases hc : c = '\n'
    · subst hc; rw [splitLines_cons_nl]; exact ih
    · cases h : splitLines cs with
      | mk ls r =>
        cases ls with
        | nil =>
          rw [splitLines_cons_other_nil hc h]
          intro hm
          rcases List.mem_cons.mp hm with e | hm2
          · exact hc e.symm
          · rw [h] at ih; exact ih hm2
        | cons l0 ls0 =>
          rw [splitLines_cons_other_cons hc h]; rw [h] at ih; exact ih

theorem framerRunFull_eq (cs : List (List Char)) (buf : List Char)
    (h : '\n' ∉ buf) : framerRunFull buf cs = splitLines (buf ++ cs.flatten) := by
  induction cs generalizing buf with
  | nil => simp [framerRunFull, noNl_splitLines h]
  | cons c cs ih =>
    have h2 := rem_noNl (buf ++ c)
    have ihh := ih (splitLines (buf ++ c)).2 h2
    simp only [framerRunFull, ihh]
    have ha : buf ++ (c :: cs).flatten = (buf ++ c) ++ cs.flatten := by simp
    rw [ha, splitLines_append ((splitLines (buf ++ c)).2) cs.flatten,
        noNl_splitLines h2, splitLines_append (buf ++ c) cs.flatten]
    cases hj : splitLines cs.flatten with
    | mk jl jr => cases jl <;> simp [joinSplit]

theorem splitLines_length (l : List Char) :
    (splitLines l).1.length = countNl l := by
  induction l with
  | nil => rfl
  | cons c cs ih =>
    by_cases hc : c = '\n'
    · subst hc; rw [splitLines_cons_nl]; simp [countNl, ih, Nat.add_comm]
    · cases h : splitLines cs with
      | mk ls r =>
        rw [h] at ih
        cases ls with
        | nil =>
          rw [splitLines_cons_other_nil hc h]
          simp only [List.length_nil] at ih ⊢
          simp [countNl, hc, ← ih]
        | cons l0 ls0 =>
          rw [splitLines_cons_other_cons hc h]
          simp only [List.length_cons] at ih ⊢
          simp [countNl, hc, ← ih]

/-- C1 (Line Framer chunk-boundary invariance): for every way of splitting
a stream into chunks, feeding the chunks one at a time through the framer
emits exactly the same lines, in the same order, as feeding the whole
concatenation as a single chunk; the number of emitted lines is the number
of newline characters (newline-terminated lines) in the concatenation. -/
theorem framer_chunk_invariance (chunks : List (List Char)) :
    framerRun [] chunks = framerRun [] [chunks.flatten]
    ∧ (framerRun [] chunks).length = countNl chunks.flatten := by
  have h0 : ('\n' : Char) ∉ ([] : List Char) := by simp
  constructor
  · unfold framerRun
    rw [framerRunFull_eq chunks [] h0, framerRunFull_eq [chunks.flatten] [] h0]
    simp
  · unfold framerRun
    rw [framerRunFull_eq chunks [] h0]
    simpa using splitLines_length chunks.flatten

theorem isPrefixOf_append_self (xs ys : List Char) :
    xs.isPrefixOf (xs ++ ys) = true := by
  induction xs with
  | nil => simp [List.isPrefixOf]
  | cons a as ih => simp [List.isPrefixOf, ih]

theorem evMark_not_data (s : List Char) :
    evMark.isPrefixOf (dataMark ++ s) = false := rfl

theorem dataMark_not_ev (nm : List Char) :
    dataMark.isPrefixOf (evMark ++ nm) = false := rfl

theorem drop_evMark (nm : List Char) : (evMark ++ nm).drop 7 = nm := rfl

theorem drop_dataMark (s : List Char) : (dataMark ++ s).drop 6 = s := rfl

theorem ceTruthy_of_ne {nm : List Char} (h : nm ≠ []) :
    ceTruthy (some nm) = true := by
  cases nm with
  | nil => exact absurd rfl h
  | cons a as => rfl

theorem dispStep_ev (parse : List Char → Option Payload)
    (ce : Option (List Char)) (nm : List Char) :
    dispStep parse ce (evMark ++ nm) = (some nm, none) := by
  simp [dispStep, isPrefixOf_append_self, drop_evMark]

theorem dispStep_data_some (parse : List Char → Option Payload)
    {nm s : List Char} {v : Payload} (hnm : nm ≠ []) (hv : parse s = some v) :
    dispStep parse (some nm) (dataMark ++ s) = (none, some (nm, v)) := by
  simp [dispStep, evMark_not_data, isPrefixOf_append_self,
        ceTruthy_of_ne hnm, drop_dataMark, hv]

theorem dispStep_data_none (parse : List Char → Option Payload)
    {nm s : List Char} (hnm : nm ≠ []) (hv : parse s = none) :
    dispStep parse (some nm) (dataMark ++ s) = (none, none) := by
  simp [dispStep, evMark_not_data, isPrefixOf_append_self,
        ceTruthy_of_ne hnm, drop_dataMark, hv]

theorem dispLines_append (parse : List Char → Option Payload)
    (xs ys : List (List Char)) (ce : Option (List Char)) :
    dispLines parse ce (xs ++ ys)
      = ((dispLines parse ce xs).1
          ++ (dispLines parse (dispLines parse ce xs).2 ys).1,
         (dispLines parse (dispLines parse ce xs).2 ys).2) := by
  induction xs generalizing ce with
  | nil => simp [dispLines]
  | cons l ls ih =>
    simp only [List.cons_append, dispLines]
    cases h : dispStep parse ce l with
    | mk ce1 ev =>
      cases ev with
      | none => simp [ih ce1]
      | some e => simp [ih ce1]

theorem applyLines_eq (parse : List Char → Option Payload)
    (ls : List (List Char)) (ce : Option (List Char)) (a : AccState) :
    applyLines parse ce ls a = applyAll a (dispLines parse ce ls).1 := by
  induction ls generalizing ce a with
  | nil => rfl
  | cons l ls ih =>
    simp only [applyLines, dispLines]
    cases h : dispStep parse ce l with
    | mk ce1 ev =>
      cases ev with
      | none => simp [ih]
      | some e => simp [applyAll, ih]

theorem applyAll_append (a : AccState) (e1 e2 : List (List Char × Payload)) :
    applyAll a (e1 ++ e2) = applyAll (applyAll a e1) e2 := by
  induction e1 generalizing a with
  | nil => rfl
  | cons e es ih => simp [applyAll, ih]

theorem streamLoop_eq (parse : List Char → Option Payload)
    (cs : List (List Char)) (buf : List Char) (a : AccState) :
    streamLoop parse buf cs a = applyAll a (chunkedEvents parse buf cs) := by
  induction cs generalizing buf a with
  | nil => rfl
  | cons c cs ih =>
    simp only [streamLoop, chunkedEvents, loopIter, dispEvents]
    rw [applyAll_append, ← applyLines_eq]
    exact ih _ _

theorem streamLoop_append (parse : List Char → Option Payload)
    (cs ds : List (List Char)) (buf : List Char) (a : AccState) :
    streamLoop parse buf (cs ++ ds) a
      = streamLoop parse (framerRunFull buf cs).2 ds (streamLoop parse buf cs a) := by
  induction cs generalizing buf a with
  | nil => simp [framerRunFull, streamLoop]
  | cons c cs ih =>
    simp only [List.cons_append, streamLoop, framerRunFull, loopIter]
    exact ih _ _

theorem dispLines_frame_cons (parse : List Char → Option Payload)
    {nm s : List Char} {v : Payload} (hnm : nm ≠ []) (hv : parse s = some v)
    (ce : Option (List Char)) (rest : List (List Char)) :
    dispLines parse ce ((evMark ++ nm) :: (dataMark ++ s) :: rest)
      = ((nm, v) :: (dispLines parse none rest).1,
         (dispLines parse none rest).2) := by
  simp only [dispLines, dispStep_ev, dispStep_data_some parse hnm hv]

theorem dispLines_badFrame_cons (parse : List Char → Option Payload)
    {nm s : List Char} (hnm : nm ≠ []) (hv : parse s = none)
    (ce : Option (List Char)) (rest : List (List Char)) :
    dispLines parse ce ((evMark ++ nm) :: (dataMark ++ s) :: rest)
      = dispLines parse none rest := by
  simp only [dispLines, dispStep_ev, dispStep_data_none parse hnm hv]

theorem lookupKey_setKey_self (q : QState) (k : String) (v : SVal) :
    lookupKey (setKey q k v) k = some v := by
  induction q with
  | nil => simp [setKey, lookupKey]
  | cons kv rest ih =>
    obtain ⟨k1, v1⟩ := kv
    by_cases h : k1 = k
    · simp [setKey, lookupKey, h]
    · simp [setKey, lookupKey, h, ih]

theorem lookupKey_setKey_other (q : QState) {k k1 : String} (h : k1 ≠ k)
    (v : SVal) : lookupKey (setKey q k v) k1 = lookupKey q k1 := by
  induction q with
  | nil => simp [setKey, lookupKey, Ne.symm h]
  | cons kv rest ih =>
    obtain ⟨k2, v2⟩ := kv
    by_cases h2 : k2 = k
    · subst h2; simp [setKey, lookupKey, Ne.symm h]
    · simp [setKey, lookupKey, h2, ih]

theorem wf_lookup {q : QState} (hw : wfB q = true) {k : String}
    (hk : k ≠ "job_analysis") (x : Option Payload) :
    lookupKey q k ≠ some (.analysis x) := by
  induction q with
  | nil => simp [lookupKey]
  | cons kv rest ih =>
    obtain ⟨k1, v1⟩ := kv
    rw [wfB] at hw
    simp only [List.all_cons, Bool.and_eq_true] at hw
    simp only [lookupKey]
    by_cases h : k1 = k
    · rw [if_pos h]
      intro he
      have hv : v1 = SVal.analysis x := by injection he
      rw [hv] at hw
      have h2 : (k1 == "job_analysis") = true := hw.1
      have h3 : k1 = "job_analysis" := by simpa using h2
      exact hk (by rw [← h]; exact h3)
    · rw [if_neg h]
      exact ih hw.2

/-- C2 (code bug): superseded-session isolation fails.  accReset is the
state installed synchronously when a new session starts; frameChunk is a
frame later delivered by the prior session's still-open transport.  The
loop body of the old session (loopIter, Home.jsx lines 61-83) carries no
session identity and is never aborted — eventSourceRef.current is never
assigned, so the close() on lines 43-44 never runs — and applying it to
the new session's freshly reset state mutates the Result Accumulator: the
stale frame is applied, not dropped. -/
theorem stale_frame_mutates_reset_state :
    (loopIter parseTech [] frameChunk accReset).2.questions
      ≠ accReset.questions := by
  decide

/-- C3 counterexample: two chunk sequences with the same concatenated text
on which the dispatcher applies different events — the frame whose
`event:` line and `data:` line arrive in different chunks is dropped,
because `currentEvent` is declared inside the `while` loop (Home.jsx line
69) and is therefore reset at every chunk boundary. -/
theorem dispatcher_chunk_dependence_cex :
    List.flatten [evChunk, dataChunk] = List.flatten [evChunk ++ dataChunk]
    ∧ chunkedEvents parseTech [] [evChunk, dataChunk]
        ≠ chunkedEvents parseTech [] [evChunk ++ dataChunk] := by
  constructor
  · simp
  · decide

/-- C3 (amended): the Event Dispatcher applies the frame grammar
independently to each chunk's batch of completed lines, with the pending
event name reset to null at every chunk boundary; the final state of the
stateful read loop equals folding the concatenation of the per-batch
grammar results (chunkedEvents) over the initial state, so the applied
events are a function of the per-chunk line batches (not of the
concatenated text alone); and within a single batch an `event:` line
followed by a parseable `data:` line is applied. -/
theorem per_chunk_grammar (parse : List Char → Option Payload)
    (chunks : List (List Char)) (a : AccState)
    (nm2 s2 : List Char) (v : Payload) (rest2 : List (List Char))
    (hnm2 : nm2 ≠ []) (hv : parse s2 = some v) :
    streamLoop parse [] chunks a = applyAll a (chunkedEvents parse [] chunks)
    ∧ dispEvents parse ((evMark ++ nm2) :: (dataMark ++ s2) :: rest2)
        = (nm2, v) :: dispEvents parse rest2 := by
  constructor
  · exact streamLoop_eq parse chunks [] a
  · simp only [dispEvents]
    rw [dispLines_frame_cons parse hnm2 hv]

/-- Witness for the C3 amended theorem at concrete inputs. -/
theorem per_chunk_grammar_witness :
    streamLoop parseTech [] [frameChunk] accReset
      = applyAll accReset (chunkedEvents parseTech [] [frameChunk])
    ∧ dispEvents parseTech
        ((evMark ++ "status".toList) :: (dataMark ++ "x".toList) :: [])
        = ("status".toList, pTech) :: dispEvents parseTech [] :=
  per_chunk_grammar parseTech [frameChunk] accReset
    ("status".toList) ("x".toList) pTech [] (by decide) rfl

/-- C8 counterexample: the line with a trailing space after the event name
sets the pending event name to the untrimmed remainder, which differs from
the trimmed name the claim predicts (`currentEvent = line.slice(7)` on
Home.jsx line 72 performs no trimming). -/
theorem event_name_not_trimmed_cex :
    (dispStep parseNone none ("event: question ").toList).1
      = some ("question ").toList
    ∧ ("question ").toList ≠ ("question").toList := by
  constructor
  · decide
  · decide

/-- C8 (amended): for every line beginning with `event: `, the pending
event name is set to the raw remainder of the line after the 7-character
marker, with no whitespace trimming, and the line applies no event. -/
theorem event_line_sets_raw_remainder (parse : List Char → Option Payload)
    (ce : Option (List Char)) (nm : List Char) :
    dispStep parse ce (evMark ++ nm) = (some nm, none) :=
  dispStep_ev parse ce nm

/-- C4 counterexample: starting from a state holding a prior ResultSet,
a failing non-streaming call leaves the ResultSet null rather than
untouched, because `setQuestions(null)` on index.tsx line 159 runs before
the request is issued. -/
theorem one_shot_clears_on_failure_cex :
    (OneShot.generateQuestions stOSPrior (.error ())).1.questions
      ≠ stOSPrior.questions := by
  decide

/-- C4 (amended): for a non-blank job description, the non-streaming
generate-questions call replaces the entire ResultSet with the response on
success; on any failure of the request it reports an error but leaves the
ResultSet cleared to null — the prior ResultSet, discarded before the
request, is not preserved. -/
theorem one_shot_replace_or_clear (st : OneShot.OSState)
    (resp : OneShot.QuestionsResponse)
    (h : jsBlank st.jobDescription = false) :
    (OneShot.generateQuestions st (.ok resp)).1.questions = some resp
    ∧ (OneShot.generateQuestions st (.ok resp)).2 = .success
    ∧ (OneShot.generateQuestions st (.error ())).1.questions = none
    ∧ (OneShot.generateQuestions st (.error ())).2 = .failure := by
  simp [OneShot.generateQuestions, h]

/-- Witness for the C4 amended theorem at concrete inputs. -/
theorem one_shot_replace_or_clear_witness :
    (OneShot.generateQuestions stOSPrior (.ok respDemo)).1.questions = some respDemo
    ∧ (OneShot.generateQuestions stOSPrior (.ok respDemo)).2 = .success
    ∧ (OneShot.generateQuestions stOSPrior (.error ())).1.questions = none
    ∧ (OneShot.generateQuestions stOSPrior (.error ())).2 = .failure :=
  one_shot_replace_or_clear stOSPrior respDemo (by decide)

/-- C5 (per-frame parse-error recovery): a frame whose `data:` line fails
to parse (with a set pending event name) is discarded without applying any
event and without ending the run — the surrounding line sequence is
processed as if the whole malformed frame were absent; a `data:` line
clears the pending event name whether its payload parses or not; and a
well-formed frame following the malformed one is parsed and applied
exactly as it would be on its own. -/
theorem parse_error_recovery (parse : List Char → Option Payload)
    (pre post rest2 : List (List Char)) (nm rest e s nm2 s2 : List Char)
    (v : Payload) (hnm : nm ≠ []) (hbad : parse rest = none)
    (he : e ≠ []) (hnm2 : nm2 ≠ []) (hv : parse s2 = some v) :
    dispEvents parse (pre ++ (evMark ++ nm) :: (dataMark ++ rest) :: post)
      = dispEvents parse pre ++ dispEvents parse post
    ∧ (dispLines parse (some e) [dataMark ++ s]).2 = none
    ∧ dispEvents parse (pre ++ (evMark ++ nm) :: (dataMark ++ rest)
          :: (evMark ++ nm2) :: (dataMark ++ s2) :: rest2)
        = dispEvents parse pre ++ (nm2, v) :: dispEvents parse rest2 := by
  refine ⟨?_, ?_, ?_⟩
  · simp only [dispEvents]
    rw [dispLines_append, dispLines_badFrame_cons parse hnm hbad]
  · cases hp : parse s with
    | none => simp [dispLines, dispStep_data_none parse he hp]
    | some w => simp [dispLines, dispStep_data_some parse he hp]
  · simp only [dispEvents]
    rw [dispLines_append, dispLines_badFrame_cons parse hnm hbad,
        dispLines_frame_cons parse hnm2 hv]

/-- Witness for the C5 theorem at concrete inputs. -/
theorem parse_error_recovery_witness :
    dispEvents parseDemo
        ([] ++ (evMark ++ "status".toList) :: (dataMark ++ "bad".toList) :: [dataChunk])
      = dispEvents parseDemo [] ++ dispEvents parseDemo [dataChunk]
    ∧ (dispLines parseDemo (some ("status".toList)) [dataMark ++ "x".toList]).2 = none
    ∧ dispEvents parseDemo
        ([] ++ (evMark ++ "status".toList) :: (dataMark ++ "bad".toList)
          :: (evMark ++ "question".toList) :: (dataMark ++ "x".toList) :: [])
      = dispEvents parseDemo [] ++ ("question".toList, pTech) :: dispEvents parseDemo [] :=
  parse_error_recovery parseDemo [] [dataChunk] []
    ("status".toList) ("bad".toList) ("status".toList) ("x".toList)
    ("question".toList) ("x".toList) pTech
    (by decide) (by decide) (by decide) (by decide) (by decide)

/-- C9 (empty-input validation): when the job description is empty or
whitespace-only, both the streaming start and the one-shot call return a
validation failure with the component state exactly unchanged, for every
possible transport outcome — so no network request is consulted. -/
theorem blank_input_rejected (parse : List Char → Option Payload)
    (stH : HomeState) (stO : OneShot.OSState)
    (tr : Except Unit (List (List Char)))
    (r : Except Unit OneShot.QuestionsResponse)
    (hH : jsBlank stH.jobDescription = true)
    (hO : jsBlank stO.jobDescription = true) :
    Home.generateQuestionsStream parse stH tr = (stH, .validationError)
    ∧ OneShot.generateQuestions stO r = (stO, .validationError) := by
  constructor
  · simp [Home.generateQuestionsStream, hH]
  · simp [OneShot.generateQuestions, hO]

/-- Witness for the C9 theorem at concrete inputs. -/
theorem blank_input_rejected_witness :
    Home.generateQuestionsStream parseNone stHomeBlank (.ok [frameChunk])
      = (stHomeBlank, .validationError)
    ∧ OneShot.generateQuestions stOSBlank (.error ())
      = (stOSBlank, .validationError) :=
  blank_input_rejected parseNone stHomeBlank stOSBlank (.ok [frameChunk])
    (.error ()) (by decide) (by decide)

/-- C10 (load-more precondition guard): whenever the ResultSet has no job
analysis — including when no ResultSet exists at all — the load-more
operation of either code path is a complete no-op: it returns with the
state unchanged and the noop outcome, for every possible request result
(so no request is consulted). -/
theorem load_more_noop (st : HomeState) (resp : Except Unit (List Payload))
    (stO : OneShot.OSState) (respO : Except Unit (List OneShot.Question))
    (hH : jaNullH st = true) (hO : jaNullOS stO = true) :
    Home.loadMoreQuestions st resp = (st, .noop)
    ∧ OneShot.loadMoreQuestions stO respO = (stO, .noop) := by
  constructor
  · unfold Home.loadMoreQuestions
    cases hq : st.questions with
    | none => rfl
    | some q =>
      have ht : Home.jaTruthy q = false := by
        unfold Home.jaTruthy
        cases hl : lookupKey q "job_analysis" with
        | none => rfl
        | some sv =>
          cases sv with
          | list xs => simp [jaNullH, hq, hl] at hH
          | analysis x =>
            cases x with
            | none => rfl
            | some _ => simp [jaNullH, hq, hl] at hH
      simp [ht]
  · unfold OneShot.loadMoreQuestions
    cases hq : stO.questions with
    | none => rfl
    | some q =>
      cases hja : q.job_analysis with
      | none => simp [hja]
      | some ja => simp [jaNullOS, hq, hja] at hO

/-- Witness for the C10 theorem at concrete inputs. -/
theorem load_more_noop_witness :
    Home.loadMoreQuestions stHomeNoJa (.ok [pTech]) = (stHomeNoJa, .noop)
    ∧ OneShot.loadMoreQuestions stOSPrior (.ok [qDemo]) = (stOSPrior, .noop) :=
  load_more_noop stHomeNoJa (.ok [pTech]) stOSPrior (.ok [qDemo])
    (by decide) (by decide)

/-- C6 counterexample: applying a `question` event whose payload category
is the reserved key job_analysis to the freshly reset state changes the
jobAnalysis field (the state object of Home.jsx keeps the job-analysis
slot and the category arrays in the same object, and the handler writes
to `prev[data.category]` unconditionally), contradicting the claim that
the jobAnalysis field is unchanged by every applied question event. -/
theorem question_event_cex :
    lookupKey (Home.handleStreamEvent ("question".toList) pJA accReset).questions
        "job_analysis"
      ≠ lookupKey accReset.questions "job_analysis" := by
  decide

/-- C6 (amended): for every reachable accumulator state (only the
job_analysis key holds a non-array value) and every applied `question`
event whose payload category is not the reserved key job_analysis, the
sequence for the payload's category grows by exactly one element, the
appended element equals the event payload, the category sequence is
created as a singleton if it was absent, and every other key — in
particular the jobAnalysis field — is unchanged. -/
theorem question_event_appends (a : AccState) (p : Payload) (k1 : String)
    (hw : wfB a.questions = true)
    (hk : (p.get "category").getD "undefined" ≠ "job_analysis")
    (hk1 : k1 ≠ (p.get "category").getD "undefined") :
    catList (Home.handleStreamEvent ("question".toList) p a).questions
        ((p.get "category").getD "undefined")
      = catList a.questions ((p.get "category").getD "undefined") ++ [p]
    ∧ (lookupKey a.questions ((p.get "category").getD "undefined") = none →
        lookupKey (Home.handleStreamEvent ("question".toList) p a).questions
            ((p.get "category").getD "undefined") = some (.list [p]))
    ∧ lookupKey (Home.handleStreamEvent ("question".toList) p a).questions k1
        = lookupKey a.questions k1
    ∧ lookupKey (Home.handleStreamEvent ("question".toList) p a).questions
          "job_analysis"
        = lookupKey a.questions "job_analysis" := by
  have hn1 : ¬(("question".toList : List Char) = "status".toList) := by decide
  have hn2 : ¬(("question".toList : List Char) = "job_analysis".toList) := by
    decide
  have hq : (Home.handleStreamEvent ("question".toList) p a).questions
      = appendVals a.questions ((p.get "category").getD "undefined") [p] := by
    by_cases hc : p.get "category" = some "technical" <;>
      simp [Home.handleStreamEvent, hn1, hn2, hc]
  have hna := wf_lookup hw hk
  have happ : appendVals a.questions ((p.get "category").getD "undefined") [p]
      = setKey a.questions ((p.get "category").getD "undefined")
          (.list (catList a.questions ((p.get "category").getD "undefined") ++ [p])) := by
    cases hl : lookupKey a.questions ((p.get "category").getD "undefined") with
    | none => simp [appendVals, hl, catList]
    | some sv =>
      cases sv with
      | list xs => simp [appendVals, hl, catList]
      | analysis x => exact absurd hl (hna x)
  refine ⟨?_, ?_, ?_, ?_⟩
  · rw [hq, happ]
    simp [catList, lookupKey_setKey_self]
  · intro h0
    rw [hq, happ]
    simp [catList, h0, lookupKey_setKey_self]
  · rw [hq, happ, lookupKey_setKey_other _ hk1]
  · rw [hq, happ, lookupKey_setKey_other _ (Ne.symm hk)]

/-- Witness for the C6 amended theorem at concrete inputs. -/
theorem question_event_appends_witness :
    catList (Home.handleStreamEvent ("question".toList) pTech accReset).questions
        ((pTech.get "category").getD "undefined")
      = catList accReset.questions ((pTech.get "category").getD "undefined") ++ [pTech]
    ∧ (lookupKey accReset.questions ((pTech.get "category").getD "undefined") = none →
        lookupKey (Home.handleStreamEvent ("question".toList) pTech accReset).questions
            ((pTech.get "category").getD "undefined") = some (.list [pTech]))
    ∧ lookupKey (Home.handleStreamEvent ("question".toList) pTech accReset).questions
          "behavioral"
        = lookupKey accReset.questions "behavioral"
    ∧ lookupKey (Home.handleStreamEvent ("question".toList) pTech accReset).questions
          "job_analysis"
        = lookupKey accReset.questions "job_analysis" :=
  question_event_appends accReset pTech "behavioral"
    (by decide) (by decide) (by decide)

/-- C7 (trailing-fragment discard): appending a non-empty, newline-free
fragment to the final chunk of a stream (the text after the last newline
of the concatenation) changes nothing observable: the framer emits exactly
the same lines, the fragment merely accumulates in the pending buffer that
is dropped at stream end, and the final accumulator state of the read loop
is identical — the fragment is never emitted as a line and contributes no
event. -/
theorem trailing_fragment_discarded (parse : List Char → Option Payload)
    (chunks : List (List Char)) (lc frag : List Char) (a : AccState)
    (hfree : '\n' ∉ frag) (hne : frag ≠ []) :
    (framerRun [] (chunks ++ [lc ++ frag]),
     (framerRunFull [] (chunks ++ [lc ++ frag])).2,
     streamLoop parse [] (chunks ++ [lc ++ frag]) a)
    = (framerRun [] (chunks ++ [lc]),
       (framerRunFull [] (chunks ++ [lc])).2 ++ frag,
       streamLoop parse [] (chunks ++ [lc]) a) := by
  have h0 : ('\n' : Char) ∉ ([] : List Char) := by simp
  have key : ∀ x : List Char,
      splitLines (x ++ frag) = ((splitLines x).1, (splitLines x).2 ++ frag) := by
    intro x
    rw [splitLines_append, noNl_splitLines hfree]
    rfl
  have e1 : framerRunFull [] (chunks ++ [lc ++ frag])
      = ((framerRunFull [] (chunks ++ [lc])).1,
         (framerRunFull [] (chunks ++ [lc])).2 ++ frag) := by
    rw [framerRunFull_eq _ _ h0, framerRunFull_eq _ _ h0]
    have ha : (chunks ++ [lc ++ frag]).flatten
        = (chunks ++ [lc]).flatten ++ frag := by simp
    simp only [List.nil_append]
    rw [ha, key]
  have e3 : streamLoop parse [] (chunks ++ [lc ++ frag]) a
      = streamLoop parse [] (chunks ++ [lc]) a := by
    rw [streamLoop_append, streamLoop_append]
    simp only [streamLoop, loopIter]
    rw [← List.append_assoc, key]
  simp [framerRun, e1, e3]

/-- Witness for the C7 theorem at concrete inputs. -/
theorem trailing_fragment_discarded_witness :
    (framerRun [] ([evChunk] ++ [dataChunk ++ ("tail").toList]),
     (framerRunFull [] ([evChunk] ++ [dataChunk ++ ("tail").toList])).2,
     streamLoop parseTech [] ([evChunk] ++ [dataChunk ++ ("tail").toList]) accReset)
    = (framerRun [] ([evChunk] ++ [dataChunk]),
       (framerRunFull [] ([evChunk] ++ [dataChunk])).2 ++ ("tail").toList,
       streamLoop parseTech [] ([evChunk] ++ [dataChunk]) accReset) :=
  trailing_fragment_discarded parseTech [evChunk] dataChunk (("tail").toList)
    accReset (by decide) (by decide)
